import Mathlib

/-!
Verification of the memc memcached client library (cattlecloud/memc).

This file gives a shallow embedding of the parts of the library needed to
settle the frozen claims: the value codec (encode.go), the expiration
computation and key validation (client.go), the connection pool and shard
router (iopool/pool.go), the protocol verbs (verbs.go) and the multi-key
helpers (multi.go).  Machine integers are modelled as Nat/Int with explicit
reductions modulo two to the width where Go overflow or conversion matters;
byte slices are lists of Nat below 256; fallible Go code returns Except.
-/

namespace Memc

/-- Typed errors of the library, mirroring the error values declared in
verbs.go and iopool/pool.go.  Dynamic errors (unexpected replies, transport
failures) carry their text. -/
inductive Err where
  | cacheMiss
  | keyNotValid
  | notStored
  | notFound
  | conflict
  | expiration
  | clientClosed
  | negativeInc
  | nonNumeric
  | unexpectedReply (raw : List Nat)
  | connFailure (msg : String)
  | eof
  deriving Repr, DecidableEq

/-! ## Value codec (encode.go)

Go bytes are modelled as Nat values below 256.  The functions below are the
arms of the type switches in encode and decode; each arm is named after the
Go type it handles.  binary.LittleEndian.PutUintN writes byte i as
byte(v >> (8*i)); binary.LittleEndian.UintN reads them back and panics when
the slice is shorter than the width, which the decode model surfaces as the
panicked constructor. -/

/-- Result of decode: either a value, or a Go runtime panic caused by an
out-of-range index or slice access inside decode. -/
inductive DecodeResult (α : Type) where
  | ok (val : α)
  | panicked
  deriving Repr, DecidableEq

/-- Go byte(v) for a signed integer value: two's complement truncation to
8 bits. -/
def byteOfInt (v : Int) : Nat := (v % 256).toNat

/-- Little-endian bytes of an unsigned 16-bit value,
as binary.LittleEndian.PutUint16. -/
def put16 (v : Nat) : List Nat := [v % 256, v / 256 % 256]

/-- Little-endian bytes of an unsigned 32-bit value,
as binary.LittleEndian.PutUint32. -/
def put32 (v : Nat) : List Nat :=
  [v % 256, v / 256 % 256, v / 65536 % 256, v / 16777216 % 256]

/-- Little-endian bytes of an unsigned 64-bit value,
as binary.LittleEndian.PutUint64. -/
def put64 (v : Nat) : List Nat :=
  [v % 256, v / 256 % 256, v / 65536 % 256, v / 16777216 % 256,
   v / 4294967296 % 256, v / 1099511627776 % 256,
   v / 281474976710656 % 256, v / 72057594037927936 % 256]

/-- Two's complement truncation of a signed value to w bits, as Go
uintN(v) for intN v, returned as the unsigned representative. -/
def toUnsigned (w : Nat) (v : Int) : Nat := (v % 2 ^ w).toNat

/-- Two's complement reading of an unsigned w-bit value as Go intN(u). -/
def toSigned (w : Nat) (u : Nat) : Int :=
  if u < 2 ^ (w - 1) then (u : Int) else (u : Int) - 2 ^ w

/-- encode, case []byte: pass-through. -/
def encodeBytes (v : List Nat) : List Nat := v

/-- encode, case string: the raw bytes of the string. -/
def encodeString (v : List Nat) : List Nat := v

/-- encode, case int8: []byte\x7bbyte(v)\x7d. -/
def encodeInt8 (v : Int) : List Nat := [byteOfInt v]

/-- encode, case uint8: []byte\x7bbyte(v)\x7d. -/
def encodeUint8 (v : Nat) : List Nat := [v]

/-- encode, case int16: PutUint16 of uint16(v). -/
def encodeInt16 (v : Int) : List Nat := put16 (toUnsigned 16 v)

/-- encode, case uint16: PutUint16 of v. -/
def encodeUint16 (v : Nat) : List Nat := put16 v

/-- encode, case int32: PutUint32 of uint32(v). -/
def encodeInt32 (v : Int) : List Nat := put32 (toUnsigned 32 v)

/-- encode, case uint32: PutUint32 of v. -/
def encodeUint32 (v : Nat) : List Nat := put32 v

/-- encode, case int64: PutUint64 of uint64(v). -/
def encodeInt64 (v : Int) : List Nat := put64 (toUnsigned 64 v)

/-- encode, case uint64: PutUint64 of v. -/
def encodeUint64 (v : Nat) : List Nat := put64 v

/-- encode, case int: PutUint64 of uint64(v) (platform int is 64-bit). -/
def encodeGoInt (v : Int) : List Nat := put64 (toUnsigned 64 v)

/-- encode, case uint: PutUint64 of uint64(v). -/
def encodeGoUint (v : Nat) : List Nat := put64 v

/-- binary.LittleEndian.Uint16 with its bounds check: needs at least two
bytes, otherwise the Go code panics. -/
def read16 (b : List Nat) : DecodeResult Nat :=
  match b with
  | b0 :: b1 :: _ => .ok (b0 + 256 * b1)
  | _ => .panicked

/-- binary.LittleEndian.Uint32 with its bounds check. -/
def read32 (b : List Nat) : DecodeResult Nat :=
  match b with
  | b0 :: b1 :: b2 :: b3 :: _ =>
      .ok (b0 + 256 * b1 + 65536 * b2 + 16777216 * b3)
  | _ => .panicked

/-- binary.LittleEndian.Uint64 with its bounds check. -/
def read64 (b : List Nat) : DecodeResult Nat :=
  match b with
  | b0 :: b1 :: b2 :: b3 :: b4 :: b5 :: b6 :: b7 :: _ =>
      .ok (b0 + 256 * b1 + 65536 * b2 + 16777216 * b3 + 4294967296 * b4 +
           1099511627776 * b5 + 281474976710656 * b6 +
           72057594037927936 * b7)
  | _ => .panicked

/-- decode, case []byte: returns the slice, never panics. -/
def decodeBytes (b : List Nat) : DecodeResult (List Nat) := .ok b

/-- decode, case string: string(b), never panics. -/
def decodeString (b : List Nat) : DecodeResult (List Nat) := .ok b

/-- decode, case int8: int8(b[0]); indexing an empty slice panics. -/
def decodeInt8 (b : List Nat) : DecodeResult Int :=
  match b with
  | b0 :: _ => .ok (toSigned 8 b0)
  | _ => .panicked

/-- decode, case uint8: b[0]; indexing an empty slice panics. -/
def decodeUint8 (b : List Nat) : DecodeResult Nat :=
  match b with
  | b0 :: _ => .ok b0
  | _ => .panicked

/-- decode, case int16: int16(LittleEndian.Uint16(b)). -/
def decodeInt16 (b : List Nat) : DecodeResult Int :=
  match read16 b with
  | .ok u => .ok (toSigned 16 u)
  | .panicked => .panicked

/-- decode, case uint16: LittleEndian.Uint16(b). -/
def decodeUint16 (b : List Nat) : DecodeResult Nat := read16 b

/-- decode, case int32: int32(LittleEndian.Uint32(b)). -/
def decodeInt32 (b : List Nat) : DecodeResult Int :=
  match read32 b with
  | .ok u => .ok (toSigned 32 u)
  | .panicked => .panicked

/-- decode, case uint32: LittleEndian.Uint32(b). -/
def decodeUint32 (b : List Nat) : DecodeResult Nat := read32 b

/-- decode, case int64: int64(LittleEndian.Uint64(b)). -/
def decodeInt64 (b : List Nat) : DecodeResult Int :=
  match read64 b with
  | .ok u => .ok (toSigned 64 u)
  | .panicked => .panicked

/-- decode, case uint64: LittleEndian.Uint64(b). -/
def decodeUint64 (b : List Nat) : DecodeResult Nat := read64 b

/-- decode, case int: int(LittleEndian.Uint64(b)) (64-bit platform). -/
def decodeGoInt (b : List Nat) : DecodeResult Int :=
  match read64 b with
  | .ok u => .ok (toSigned 64 u)
  | .panicked => .panicked

/-- decode, case uint: uint(LittleEndian.Uint64(b)). -/
def decodeGoUint (b : List Nat) : DecodeResult Nat := read64 b

/-! ## Expiration computation (client.go, method seconds on Client)

Go durations are nanosecond counts (Int).  The injected clock is modelled
by the Unix-nanosecond instant it returns; Time.Unix() is the floor of the
nanosecond count divided by 1e9.  int(d.Seconds()) truncates toward zero;
for the durations reaching that branch (between one second and 30 days)
this is exact integer division by 1e9. -/

/-- One second, in nanoseconds (time.Second). -/
def nsPerSecond : Int := 1000000000

/-- Time.Unix() of an instant held as Unix nanoseconds: floor division by
1e9 (Go stores sec and 0 <= nsec < 1e9 and returns sec). -/
def unixSeconds (ns : Int) : Int := Int.fdiv ns nsPerSecond

/-- Client.seconds from client.go: 0 maps to 0 (never expires); a non-zero
duration below one second is invalid; a duration above 30 days is sent as
the absolute Unix timestamp of clock-now plus the duration; anything else
is sent as relative whole seconds. -/
def clientSeconds (nowNs : Int) (expiration : Int) : Except Err Int :=
  if expiration = 0 then .ok 0
  else if expiration < 1 * nsPerSecond then .error .expiration
  else if expiration > 2592000 * nsPerSecond then
    .ok (unixSeconds (nowNs + expiration))
  else .ok (expiration / nsPerSecond)

/-! ## Connection pool (iopool/pool.go)

A Buffer wraps one socket; the model keeps its health flag (failure), a
closed marker for Close having been called on the underlying connection,
the error Close would report (ignored by the pool code), and the wire
state used by the protocol verbs.  The wire holds the bytes the server
will send and records everything written. -/

/-- Data written on a connection: either a textual command fragment or a
raw payload. -/
inductive Sent where
  | text (s : String)
  | raw (bs : List Nat)
  deriving Repr, DecidableEq

/-- One socket: the bytes the server side will deliver, and the data the
client has written so far. -/
structure Wire where
  input : List Nat
  sent : List Sent
  deriving Repr, DecidableEq

/-- Buffer from iopool/pool.go: buffered reader/writer over one connection
plus the atomic failure flag.  closed and closeErr model the state of the
underlying io.Closer. -/
structure Buffer where
  failure : Bool
  closed : Bool
  closeErr : Option String
  wire : Wire
  deriving Repr, DecidableEq

/-- newBuffer: wraps a freshly dialed connection, failure flag false. -/
def newBuffer (w : Wire) : Buffer :=
  { failure := false, closed := false, closeErr := none, wire := w }

/-- Buffer.SetHealth: a non-nil error stores true into the failure flag;
a nil error leaves the flag alone.  Nothing ever stores false. -/
def setHealth (b : Buffer) (err : Option Err) : Buffer :=
  match err with
  | some _ => { b with failure := true }
  | none => b

/-- Close on the underlying connection: marks it closed and reports the
error the io.Closer yields (callers in pool.go discard it). -/
def bufClose (b : Buffer) : Buffer × Option String :=
  ({ b with closed := true }, b.closeErr)

/-- The closed sentinel stored into the idle field by pool.close. -/
def closedSentinel : Int := -1

/-- pool from iopool/pool.go: one server address, a LIFO stack of idle
connections (head is the top), and the idle capacity, which doubles as the
closed sentinel.  The dial function openf is passed explicitly to the
operations needing it. -/
structure Pool where
  address : String
  available : List Buffer
  idle : Int
  deriving Repr, DecidableEq

/-- newPool: empty idle stack with the given capacity. -/
def newPool (address : String) (idle : Int) : Pool :=
  { address := address, available := [], idle := idle }

/-- Closing every idle connection, in pop order, discarding close errors:
the loop body of pool.close.  Returns the closed connections so that the
specification can speak about them. -/
def closeConns : List Buffer → List Buffer
  | [] => []
  | b :: rest => (bufClose b).1 :: closeConns rest

/-- pool.close: set the capacity to the closed sentinel, then pop and
close each idle connection ignoring individual close errors.  The second
component is the list of connections that were closed. -/
def poolClose (p : Pool) : Pool × List Buffer :=
  ({ p with idle := closedSentinel, available := [] }, closeConns p.available)

/-- pool.get: fails with ClientClosed when closed; pops the most recently
released idle connection when one exists; otherwise dials (the outcome of
openf is the dial argument) and wraps the new connection. -/
def poolGet (p : Pool) (dial : Except Err Wire) : Except Err Buffer × Pool :=
  if p.idle = closedSentinel then (.error .clientClosed, p)
  else
    match p.available with
    | [] =>
        match dial with
        | .error e => (.error e, p)
        | .ok w => (.ok (newBuffer w), p)
    | b :: rest => (.ok b, { p with available := rest })

/-- pool.free: a connection released to a closed pool, or when the idle
store is at or above capacity, or carrying the failure flag, is closed
(close error ignored) and discarded; otherwise it is pushed onto the idle
stack.  The second component is the released connection as the pool left
it. -/
def poolFree (p : Pool) (conn : Buffer) : Pool × Buffer :=
  if p.idle = closedSentinel then (p, (bufClose conn).1)
  else if (p.available.length : Int) ≥ p.idle then (p, (bufClose conn).1)
  else if conn.failure then (p, (bufClose conn).1)
  else ({ p with available := conn :: p.available }, conn)

/-- States a pool can reach from its construction through any sequence of
get, free and close operations, with arbitrary dialed wires and released
connections. -/
inductive PoolReachable (n : Int) : Pool → Prop where
  | init (address : String) : PoolReachable n (newPool address n)
  | step_get (p : Pool) (dial : Except Err Wire) :
      PoolReachable n p → PoolReachable n (poolGet p dial).2
  | step_free (p : Pool) (conn : Buffer) :
      PoolReachable n p → PoolReachable n (poolFree p conn).1
  | step_close (p : Pool) :
      PoolReachable n p → PoolReachable n (poolClose p).1

/-! ## Shard router (iopool/pool.go, Collection) -/

/-- Collection: the ordered list of per-address pools. -/
structure Collection where
  pools : List Pool

/-- Go byte(c) for a rune c: the low 8 bits of the code point. -/
def runeByte (c : Char) : Nat := c.toNat % 256

/-- Collection.pick: with exactly one pool the index is 0; otherwise a
1-byte running XOR seeded with 37 is folded over the key and reduced
modulo the pool count.  Go ranges over a string by rune, so the fold is
over the code points of the key truncated to bytes. -/
def pick (c : Collection) (key : String) : Nat :=
  if c.pools.length = 1 then 0
  else (key.data.foldl (fun x ch => Nat.xor x (runeByte ch)) 37) % c.pools.length

/-- UTF-8 encoding of one scalar value, used to state claims phrased in
terms of the bytes of the key. -/
def utf8Enc (c : Char) : List Nat :=
  let n := c.toNat
  if n < 128 then [n]
  else if n < 2048 then [192 + n / 64, 128 + n % 64]
  else if n < 65536 then [224 + n / 4096, 128 + n / 64 % 64, 128 + n % 64]
  else [240 + n / 262144, 128 + n / 4096 % 64, 128 + n / 64 % 64, 128 + n % 64]

/-- The UTF-8 bytes of a string. -/
def utf8Bytes (key : String) : List Nat := (key.data.map utf8Enc).flatten

/-- Modelled from the spec: the index the specification describes for a
router of n pools, XOR-folding the seed byte 37 with every byte of the
key and reducing modulo n. -/
def specPickBytes (n : Nat) (key : String) : Nat :=
  ((utf8Bytes key).foldl Nat.xor 37) % n

/-- Collection.Get: picks the pool for the key and acquires from it. -/
def collectionGet (c : Collection) (key : String) (dial : Except Err Wire) :
    Except Err Buffer × Collection :=
  let idx := pick c key
  match c.pools.get? idx with
  | none => (.error .clientClosed, c)
  | some p =>
      let (r, pr) := poolGet p dial
      (r, { pools := c.pools.set idx pr })

/-- Collection.Return: picks the pool for the key and releases the
connection to it. -/
def collectionReturn (c : Collection) (key : String) (conn : Buffer) :
    Collection :=
  let idx := pick c key
  match c.pools.get? idx with
  | none => c
  | some p => { pools := c.pools.set idx (poolFree p conn).1 }

/-- Collection.Close: closes every pool in order and returns nil. -/
def collectionClose (c : Collection) : Option Err × Collection :=
  (none, { pools := c.pools.map (fun p => (poolClose p).1) })

/-- Modelled from the spec: the close failures produced while closing a
collection, namely every error reported by closing an idle connection of
any pool.  The claim says these are aggregated into the returned error. -/
def closeFailures (c : Collection) : List String :=
  (c.pools.map (fun p => p.available.filterMap (fun b => b.closeErr))).flatten

/-! ## Key validation (client.go)

The key regexp is anchored, so a key matches exactly when it consists of
1 to 250 repetitions of a character outside the RE2 Perl class for
whitespace.  Go ranges the regexp over runes, so the repetition bound
counts characters, and the class holds the five ASCII whitespace
characters tab, newline, form feed, carriage return and space. -/

/-- The RE2 Perl whitespace class matched by the backslash-s escape in the
key regexp: tab, newline, form feed, carriage return, space. -/
def goWhitespace (c : Char) : Bool :=
  c = '\t' || c = '\n' || c = Char.ofNat 12 || c = '\r' || c = ' '

/-- check from client.go: the key must match the anchored regexp accepting
1 to 250 non-whitespace characters; otherwise ErrKeyNotValid. -/
def check (key : String) : Option Err :=
  if 1 ≤ key.length ∧ key.length ≤ 250 ∧ key.data.all (fun c => !goWhitespace c)
  then none
  else some Err.keyNotValid

/-- Modelled from the spec: the code points Unicode designates as
White_Space, for stating the claim that keys contain no whitespace
characters. -/
def unicodeWhitespace (c : Char) : Bool :=
  c.toNat ∈ [9, 10, 11, 12, 13, 32, 133, 160, 5760,
    8192, 8193, 8194, 8195, 8196, 8197, 8198, 8199, 8200, 8201, 8202,
    8232, 8233, 8239, 8287, 12288]

/-- Modelled from the spec: acceptance as the claim words it, a key of 1
to 250 bytes containing no whitespace character. -/
def specKeyAccepts (key : String) : Bool :=
  1 ≤ (utf8Bytes key).length && (utf8Bytes key).length ≤ 250 &&
    key.data.all (fun c => !unicodeWhitespace c)

/-! ## Wire primitives used by the verbs (verbs.go)

ReadSlice reads up to and including the next newline byte; with no
newline left the read fails (modelled as eof).  ReadFull reads an exact
byte count.  Writes are recorded on the wire; Flush is a no-op in the
model because writes are recorded eagerly. -/

/-- The UTF-8 bytes of a string literal, for comparing reply lines. -/
def strBytes (s : String) : List Nat := utf8Bytes s

/-- Splitting off the first newline-terminated chunk of the input. -/
def takeLine : List Nat → Option (List Nat × List Nat)
  | [] => none
  | b :: rest =>
    if b = 10 then some ([10], rest)
    else
      match takeLine rest with
      | none => none
      | some (l, r) => some (b :: l, r)

/-- ReadSlice on a buffer: the line including its newline, or a read
error when the server sends no further newline. -/
def bufRead (b : Buffer) : Except Err (List Nat × Buffer) :=
  match takeLine b.wire.input with
  | none => .error .eof
  | some (l, rest) => .ok (l, { b with wire := { b.wire with input := rest } })

/-- io.ReadFull on a buffer: exactly n bytes or a read error. -/
def bufReadFull (n : Nat) (b : Buffer) : Except Err (List Nat × Buffer) :=
  if b.wire.input.length < n then .error .eof
  else .ok (b.wire.input.take n,
    { b with wire := { b.wire with input := b.wire.input.drop n } })

/-- A textual write (Fprintf / WriteString) on a buffer. -/
def bufWriteText (b : Buffer) (s : String) : Buffer :=
  { b with wire := { b.wire with sent := b.wire.sent ++ [Sent.text s] } }

/-- A raw payload write on a buffer. -/
def bufWriteRaw (b : Buffer) (bs : List Nat) : Buffer :=
  { b with wire := { b.wire with sent := b.wire.sent ++ [Sent.raw bs] } }

/-! ## Client state and the do helper (client.go) -/

/-- Client from client.go, restricted to the fields live after
construction: the default expiration TTL, the injected clock (as the Unix
nanosecond instant it returns) and the pool collection.  The dial timeout
only parameterizes openf, whose outcome the operations receive
explicitly. -/
structure Client where
  expiration : Int
  nowNs : Int
  pools : Collection

/-- The error component of an operation outcome, as handed
to SetHealth. -/
def errOf {α : Type} : Except Err α → Option Err
  | .ok _ => none
  | .error e => some e

/-- Client.do from client.go: acquire a connection for the key, run the
operation, record its success or failure on the connection health flag,
release the connection, and return the operation outcome. -/
def clientDo {α : Type} (st : Client) (key : String) (dial : Except Err Wire)
    (f : Buffer → Except Err α × Buffer) : Except Err α × Client :=
  match collectionGet st.pools key dial with
  | (.error e, ps) => (.error e, { st with pools := ps })
  | (.ok conn, ps) =>
      let out := f conn
      let conn2 := setHealth out.2 (errOf out.1)
      (out.1, { st with pools := collectionReturn ps key conn2 })

/-- Per-verb options from verbs.go. -/
structure VerbOptions where
  expiration : Int
  flags : Int

/-- Option values a caller can pass to a verb: TTL(d) or Flags(f). -/
inductive Opt where
  | ttl (d : Int)
  | withFlags (f : Int)

/-- Building the Options record: defaults from the client, then each
option applied in order. -/
def applyOptions (defaultExpiration : Int) (opts : List Opt) : VerbOptions :=
  opts.foldl
    (fun o opt =>
      match opt with
      | .ttl d => { o with expiration := d }
      | .withFlags f => { o with flags := f })
    { expiration := defaultExpiration, flags := 0 }

/-! ## Reply parsing helpers (verbs.go) -/

/-- Digit run at the front of a byte list, with the rest. -/
def takeDigits : List Nat → List Nat × List Nat
  | [] => ([], [])
  | b :: rest =>
    if 48 ≤ b && b ≤ 57 then
      let (d, r) := takeDigits rest
      (b :: d, r)
    else ([], b :: rest)

/-- Numeric value of a digit run. -/
def digitsVal (ds : List Nat) : Nat := ds.foldl (fun a b => a * 10 + (b - 48)) 0

/-- A decimal number at the front of a byte list: at least one digit. -/
def parseNat (l : List Nat) : Option (Nat × List Nat) :=
  match takeDigits l with
  | ([], _) => none
  | (ds, r) => some (digitsVal ds, r)

/-- Consuming an expected prefix. -/
def dropPrefixB : List Nat → List Nat → Option (List Nat)
  | [], l => some l
  | _ :: _, [] => none
  | p :: ps, b :: bs => if p = b then dropPrefixB ps bs else none

/-- A maximal non-space token at the front of a byte list, as the percent-s
directive of Sscanf reads it. -/
def takeField : List Nat → List Nat × List Nat
  | [] => ([], [])
  | b :: rest =>
    if b = 32 then ([], b :: rest)
    else
      let (f, r) := takeField rest
      (b :: f, r)

/-- Sscanf against VALUE key flags size: the key token, the flags and the
payload size, or none when the line does not match (the Go scan reports an
error). -/
def parseValueHeader (line : List Nat) : Option (List Nat × Nat × Nat) := do
  let r1 ← dropPrefixB (strBytes "VALUE ") line
  let (k, r2) := takeField r1
  if k = [] then none
  else do
    let r3 ← dropPrefixB [32] r2
    let (fl, r4) ← parseNat r3
    let r5 ← dropPrefixB [32] r4
    let (sz, r6) ← parseNat r5
    let r7 ← dropPrefixB (strBytes "\r\n") r6
    if r7 = [] then pure (k, fl, sz) else none

/-- ASCII whitespace bytes trimmed by strings.TrimSpace on the replies the
counter verbs handle. -/
def isSpaceByte (b : Nat) : Bool :=
  b = 9 || b = 10 || b = 11 || b = 12 || b = 13 || b = 32

/-- strings.TrimSpace on a byte list. -/
def trimSpaceB (l : List Nat) : List Nat :=
  ((l.dropWhile isSpaceByte).reverse.dropWhile isSpaceByte).reverse

/-- strconv.ParseUint base 10 bit size 64: a nonempty all-digit string
whose value fits 64 bits. -/
def parseUint64 (l : List Nat) : Option Nat :=
  if l ≠ [] && l.all (fun b => 48 ≤ b && b ≤ 57) then
    let v := digitsVal l
    if v < 2 ^ 64 then some v else none
  else none

/-- Whether pat occurs at the front of l. -/
def startsWithB : List Nat → List Nat → Bool
  | [], _ => true
  | _ :: _, [] => false
  | p :: ps, b :: bs => p = b && startsWithB ps bs

/-- strings.Contains on byte lists. -/
def containsB : List Nat → List Nat → Bool
  | l, pat =>
    match l with
    | [] => startsWithB pat []
    | _ :: rest => startsWithB pat l || containsB rest pat

/-! ## The verbs (verbs.go)

Each verb validates the key first and performs every exchange through
Client.do.  The generic item of Set and Add enters the model as the
already-computed outcome of encode for it; the generic result type of Get
enters as the decode function for it; the Countable result of the counter
verbs enters as the conversion applied to the parsed integer. -/

/-- Set: validate the key, resolve options, then store through do —
encode the item, compute expiration seconds, write the set command plus
payload plus terminator, flush, and classify the reply line (STORED,
NOT_STORED, otherwise a protocol error carrying the raw reply). -/
def Set (st : Client) (key : String) (encItem : Except Err (List Nat))
    (opts : List Opt) (dial : Except Err Wire) : Except Err Unit × Client :=
  match check key with
  | some e => (.error e, st)
  | none =>
    let options := applyOptions st.expiration opts
    clientDo st key dial (fun conn =>
      match encItem with
      | .error encerr => (.error encerr, conn)
      | .ok bs =>
        match clientSeconds st.nowNs options.expiration with
        | .error experr => (.error experr, conn)
        | .ok exp =>
          let c1 := bufWriteText conn ("set " ++ key ++ " " ++
            toString options.flags ++ " " ++ toString exp ++ " " ++
            toString bs.length ++ "\r\n")
          let c2 := bufWriteRaw c1 bs
          let c3 := bufWriteText c2 "\r\n"
          match bufRead c3 with
          | .error e => (.error e, c3)
          | .ok (line, c4) =>
            if line = strBytes "STORED\r\n" then (.ok (), c4)
            else if line = strBytes "NOT_STORED\r\n" then
              (.error .notStored, c4)
            else (.error (.unexpectedReply line), c4))

/-- Add: identical framing to Set with the add command verb, additionally
mapping EXISTS to the conflict error. -/
def Add (st : Client) (key : String) (encItem : Except Err (List Nat))
    (opts : List Opt) (dial : Except Err Wire) : Except Err Unit × Client :=
  match check key with
  | some e => (.error e, st)
  | none =>
    let options := applyOptions st.expiration opts
    clientDo st key dial (fun conn =>
      match encItem with
      | .error encerr => (.error encerr, conn)
      | .ok bs =>
        match clientSeconds st.nowNs options.expiration with
        | .error experr => (.error experr, conn)
        | .ok exp =>
          let c1 := bufWriteText conn ("add " ++ key ++ " " ++
            toString options.flags ++ " " ++ toString exp ++ " " ++
            toString bs.length ++ "\r\n")
          let c2 := bufWriteRaw c1 bs
          let c3 := bufWriteText c2 "\r\n"
          match bufRead c3 with
          | .error e => (.error e, c3)
          | .ok (line, c4) =>
            if line = strBytes "STORED\r\n" then (.ok (), c4)
            else if line = strBytes "NOT_STORED\r\n" then
              (.error .notStored, c4)
            else if line = strBytes "EXISTS\r\n" then
              (.error .conflict, c4)
            else (.error (.unexpectedReply line), c4))

/-- getPayload: read the header line; a bare END is a cache miss;
otherwise scan VALUE key flags size, read size plus two payload bytes and
chop the terminator, then require a closing END line. -/
def getPayload (conn : Buffer) : Except Err (List Nat) × Buffer :=
  match bufRead conn with
  | .error e => (.error e, conn)
  | .ok (b, c1) =>
    if b = strBytes "END\r\n" then (.error .cacheMiss, c1)
    else
      match parseValueHeader b with
      | none => (.error (.unexpectedReply b), c1)
      | some (_, _, size) =>
        match bufReadFull (size + 2) c1 with
        | .error e => (.error e, c1)
        | .ok (raw, c2) =>
          let payload := raw.take size
          match bufRead c2 with
          | .error e => (.error e, c2)
          | .ok (b2, c3) =>
            if b2 = strBytes "END\r\n" then (.ok payload, c3)
            else (.error (.unexpectedReply b2), c3)

/-- Get: validate the key, then through do write the get command, flush,
read the payload and decode it for the requested type. -/
def Get {V : Type} (st : Client) (key : String)
    (dec : List Nat → Except Err V) (dial : Except Err Wire) :
    Except Err V × Client :=
  match check key with
  | some e => (.error e, st)
  | none =>
    clientDo st key dial (fun conn =>
      let c1 := bufWriteText conn ("get " ++ key ++ "\r\n")
      match getPayload c1 with
      | (.error e, c2) => (.error e, c2)
      | (.ok payload, c2) =>
        match dec payload with
        | .error e => (.error e, c2)
        | .ok v => (.ok v, c2))

/-- Delete: validate the key, then through do write the delete command,
flush, and classify the reply (DELETED, NOT_FOUND, otherwise a protocol
error). -/
def Delete (st : Client) (key : String) (dial : Except Err Wire) :
    Except Err Unit × Client :=
  match check key with
  | some e => (.error e, st)
  | none =>
    clientDo st key dial (fun conn =>
      let c1 := bufWriteText conn ("delete " ++ key ++ "\r\n")
      match bufRead c1 with
      | .error e => (.error e, c1)
      | .ok (line, c2) =>
        if line = strBytes "DELETED\r\n" then (.ok (), c2)
        else if line = strBytes "NOT_FOUND\r\n" then (.error .notFound, c2)
        else (.error (.unexpectedReply line), c2))

/-- Increment: validate the key and reject a negative delta before any
network use; then through do write the incr command, flush, and read the
reply: NOT_FOUND, the non-numeric-value message, or a decimal integer
converted to the result type. -/
def Increment {α : Type} (st : Client) (key : String) (delta : Int)
    (cast : Nat → α) (dial : Except Err Wire) : Except Err α × Client :=
  match check key with
  | some e => (.error e, st)
  | none =>
    if delta < 0 then (.error .negativeInc, st)
    else
      clientDo st key dial (fun conn =>
        let c1 := bufWriteText conn ("incr " ++ key ++ " " ++
          toString delta ++ "\r\n")
        match bufRead c1 with
        | .error e => (.error e, c1)
        | .ok (line, c2) =>
          if line = strBytes "NOT_FOUND\r\n" then (.error .notFound, c2)
          else if containsB line
            (strBytes "cannot increment or decrement non-numeric value")
          then (.error .nonNumeric, c2)
          else
            match parseUint64 (trimSpaceB line) with
            | none => (.error (.unexpectedReply line), c2)
            | some u => (.ok (cast u), c2))

/-- Decrement: as Increment with the decr command verb. -/
def Decrement {α : Type} (st : Client) (key : String) (delta : Int)
    (cast : Nat → α) (dial : Except Err Wire) : Except Err α × Client :=
  match check key with
  | some e => (.error e, st)
  | none =>
    if delta < 0 then (.error .negativeInc, st)
    else
      clientDo st key dial (fun conn =>
        let c1 := bufWriteText conn ("decr " ++ key ++ " " ++
          toString delta ++ "\r\n")
        match bufRead c1 with
        | .error e => (.error e, c1)
        | .ok (line, c2) =>
          if line = strBytes "NOT_FOUND\r\n" then (.error .notFound, c2)
          else if containsB line
            (strBytes "cannot increment or decrement non-numeric value")
          then (.error .nonNumeric, c2)
          else
            match parseUint64 (trimSpaceB line) with
            | none => (.error (.unexpectedReply line), c2)
            | some u => (.ok (cast u), c2))

/-! ## Multi-key helpers (multi.go) -/

/-- Pair from multi.go. -/
structure Pair (α β : Type) where
  A : α
  B : β
  deriving Repr, DecidableEq

/-- GetMulti: one result pair per key, appended in input order; a failing
Get contributes a pair holding the error and the zero value, a succeeding
one a pair holding the value and no error.  The per-key Get enters the
model as a function from key to outcome. -/
def GetMulti {V : Type} (getf : String → Except Err V) (zero : V)
    (keys : List String) : List (Pair V (Option Err)) :=
  keys.foldl
    (fun results key =>
      match getf key with
      | .error err => results ++ [{ A := zero, B := some err }]
      | .ok v => results ++ [{ A := v, B := none }])
    []

/-! ## Helper lemmas -/

theorem read16_put16 (v : Nat) (h : v < 65536) : read16 (put16 v) = .ok v := by
  simp only [read16, put16]
  congr 1
  omega

theorem read32_put32 (v : Nat) (h : v < 4294967296) :
    read32 (put32 v) = .ok v := by
  simp only [read32, put32]
  congr 1
  omega

theorem read64_put64 (v : Nat) (h : v < 18446744073709551616) :
    read64 (put64 v) = .ok v := by
  simp only [read64, put64]
  congr 1
  omega

theorem toUnsigned_16_lt (v : Int) : toUnsigned 16 v < 65536 := by
  unfold toUnsigned
  norm_num
  omega

theorem toUnsigned_32_lt (v : Int) : toUnsigned 32 v < 4294967296 := by
  unfold toUnsigned
  norm_num
  omega

theorem toUnsigned_64_lt (v : Int) : toUnsigned 64 v < 18446744073709551616 := by
  unfold toUnsigned
  norm_num
  omega

theorem toSigned_toUnsigned_8 (v : Int) (h1 : -128 ≤ v) (h2 : v < 128) :
    toSigned 8 (toUnsigned 8 v) = v := by
  unfold toSigned toUnsigned
  norm_num
  split <;> omega

theorem toSigned_toUnsigned_16 (v : Int) (h1 : -32768 ≤ v) (h2 : v < 32768) :
    toSigned 16 (toUnsigned 16 v) = v := by
  unfold toSigned toUnsigned
  norm_num
  split <;> omega

theorem toSigned_toUnsigned_32 (v : Int) (h1 : -2147483648 ≤ v)
    (h2 : v < 2147483648) : toSigned 32 (toUnsigned 32 v) = v := by
  unfold toSigned toUnsigned
  norm_num
  split <;> omega

theorem toSigned_toUnsigned_64 (v : Int) (h1 : -9223372036854775808 ≤ v)
    (h2 : v < 9223372036854775808) : toSigned 64 (toUnsigned 64 v) = v := by
  unfold toSigned toUnsigned
  norm_num
  split <;> omega

/-! ## Claims -/

/-- Claim C7: for every supported primitive type and every value of that
type within the range of the type, decoding the encoding returns the value
with no failure, including two's-complement reconstruction for the signed
widths.  The range hypotheses state membership in the Go type the switch
arm handles. -/
theorem c7_codec_roundtrip :
    (∀ v : List Nat, decodeBytes (encodeBytes v) = .ok v) ∧
    (∀ v : List Nat, decodeString (encodeString v) = .ok v) ∧
    (∀ v : Int, -128 ≤ v → v < 128 → decodeInt8 (encodeInt8 v) = .ok v) ∧
    (∀ v : Nat, v < 256 → decodeUint8 (encodeUint8 v) = .ok v) ∧
    (∀ v : Int, -32768 ≤ v → v < 32768 →
       decodeInt16 (encodeInt16 v) = .ok v) ∧
    (∀ v : Nat, v < 65536 → decodeUint16 (encodeUint16 v) = .ok v) ∧
    (∀ v : Int, -2147483648 ≤ v → v < 2147483648 →
       decodeInt32 (encodeInt32 v) = .ok v) ∧
    (∀ v : Nat, v < 4294967296 → decodeUint32 (encodeUint32 v) = .ok v) ∧
    (∀ v : Int, -9223372036854775808 ≤ v → v < 9223372036854775808 →
       decodeInt64 (encodeInt64 v) = .ok v) ∧
    (∀ v : Nat, v < 18446744073709551616 →
       decodeUint64 (encodeUint64 v) = .ok v) ∧
    (∀ v : Int, -9223372036854775808 ≤ v → v < 9223372036854775808 →
       decodeGoInt (encodeGoInt v) = .ok v) ∧
    (∀ v : Nat, v < 18446744073709551616 →
       decodeGoUint (encodeGoUint v) = .ok v) := by
  refine ⟨fun v => rfl, fun v => rfl, ?_, ?_, ?_, ?_, ?_, ?_, ?_, ?_, ?_, ?_⟩
  · intro v h1 h2
    simp only [decodeInt8, encodeInt8, byteOfInt]
    congr 1
    unfold toSigned
    norm_num
    split <;> omega
  · intro v h
    rfl
  · intro v h1 h2
    simp only [decodeInt16, encodeInt16, read16_put16 _ (toUnsigned_16_lt v)]
    rw [toSigned_toUnsigned_16 v h1 h2]
  · intro v h
    simp only [decodeUint16, encodeUint16, read16_put16 _ h]
  · intro v h1 h2
    simp only [decodeInt32, encodeInt32, read32_put32 _ (toUnsigned_32_lt v)]
    rw [toSigned_toUnsigned_32 v h1 h2]
  · intro v h
    simp only [decodeUint32, encodeUint32, read32_put32 _ h]
  · intro v h1 h2
    simp only [decodeInt64, encodeInt64, read64_put64 _ (toUnsigned_64_lt v)]
    rw [toSigned_toUnsigned_64 v h1 h2]
  · intro v h
    simp only [decodeUint64, encodeUint64, read64_put64 _ h]
  · intro v h1 h2
    simp only [decodeGoInt, encodeGoInt, read64_put64 _ (toUnsigned_64_lt v)]
    rw [toSigned_toUnsigned_64 v h1 h2]
  · intro v h
    simp only [decodeGoUint, encodeGoUint, read64_put64 _ h]

/-- Claim C7, witness: the round trip evaluated at one concrete value per
primitive type, negative values among them. -/
theorem c7_codec_roundtrip_witness :
    decodeBytes (encodeBytes [7, 0, 255]) = .ok [7, 0, 255] ∧
    decodeString (encodeString (strBytes "value")) = .ok (strBytes "value") ∧
    decodeInt8 (encodeInt8 (-5)) = .ok (-5) ∧
    decodeUint8 (encodeUint8 200) = .ok 200 ∧
    decodeInt16 (encodeInt16 (-300)) = .ok (-300) ∧
    decodeUint16 (encodeUint16 40000) = .ok 40000 ∧
    decodeInt32 (encodeInt32 (-70000)) = .ok (-70000) ∧
    decodeUint32 (encodeUint32 3000000000) = .ok 3000000000 ∧
    decodeInt64 (encodeInt64 (-5000000000)) = .ok (-5000000000) ∧
    decodeUint64 (encodeUint64 10000000000000000000) =
      .ok 10000000000000000000 ∧
    decodeGoInt (encodeGoInt (-42)) = .ok (-42) ∧
    decodeGoUint (encodeGoUint 42) = .ok 42 :=
  ⟨c7_codec_roundtrip.1 _, c7_codec_roundtrip.2.1 _,
   c7_codec_roundtrip.2.2.1 _ (by norm_num) (by norm_num),
   c7_codec_roundtrip.2.2.2.1 _ (by norm_num),
   c7_codec_roundtrip.2.2.2.2.1 _ (by norm_num) (by norm_num),
   c7_codec_roundtrip.2.2.2.2.2.1 _ (by norm_num),
   c7_codec_roundtrip.2.2.2.2.2.2.1 _ (by norm_num) (by norm_num),
   c7_codec_roundtrip.2.2.2.2.2.2.2.1 _ (by norm_num),
   c7_codec_roundtrip.2.2.2.2.2.2.2.2.1 _ (by norm_num) (by norm_num),
   c7_codec_roundtrip.2.2.2.2.2.2.2.2.2.1 _ (by norm_num),
   c7_codec_roundtrip.2.2.2.2.2.2.2.2.2.2.1 _ (by norm_num) (by norm_num),
   c7_codec_roundtrip.2.2.2.2.2.2.2.2.2.2.2 _ (by norm_num)⟩

/-- Claim C10: for every fixed-width integer target type, a byte slice
shorter than the encoded width makes decode panic with an out-of-range
access instead of returning an error. -/
theorem c10_decode_short_panics :
    (∀ b : List Nat, b.length < 1 → decodeInt8 b = .panicked) ∧
    (∀ b : List Nat, b.length < 1 → decodeUint8 b = .panicked) ∧
    (∀ b : List Nat, b.length < 2 → decodeInt16 b = .panicked) ∧
    (∀ b : List Nat, b.length < 2 → decodeUint16 b = .panicked) ∧
    (∀ b : List Nat, b.length < 4 → decodeInt32 b = .panicked) ∧
    (∀ b : List Nat, b.length < 4 → decodeUint32 b = .panicked) ∧
    (∀ b : List Nat, b.length < 8 → decodeInt64 b = .panicked) ∧
    (∀ b : List Nat, b.length < 8 → decodeUint64 b = .panicked) ∧
    (∀ b : List Nat, b.length < 8 → decodeGoInt b = .panicked) ∧
    (∀ b : List Nat, b.length < 8 → decodeGoUint b = .panicked) := by
  have h16 : ∀ b : List Nat, b.length < 2 → read16 b = .panicked := by
    intro b h
    unfold read16
    split
    · simp only [List.length_cons] at h
      omega
    · rfl
  have h32 : ∀ b : List Nat, b.length < 4 → read32 b = .panicked := by
    intro b h
    unfold read32
    split
    · simp only [List.length_cons] at h
      omega
    · rfl
  have h64 : ∀ b : List Nat, b.length < 8 → read64 b = .panicked := by
    intro b h
    unfold read64
    split
    · simp only [List.length_cons] at h
      omega
    · rfl
  refine ⟨?_, ?_, ?_, ?_, ?_, ?_, ?_, ?_, ?_, ?_⟩
  · intro b h
    unfold decodeInt8
    split
    · simp only [List.length_cons] at h
      omega
    · rfl
  · intro b h
    unfold decodeUint8
    split
    · simp only [List.length_cons] at h
      omega
    · rfl
  · intro b h
    unfold decodeInt16
    rw [h16 b h]
  · intro b h
    unfold decodeUint16
    exact h16 b h
  · intro b h
    unfold decodeInt32
    rw [h32 b h]
  · intro b h
    unfold decodeUint32
    exact h32 b h
  · intro b h
    unfold decodeInt64
    rw [h64 b h]
  · intro b h
    unfold decodeUint64
    exact h64 b h
  · intro b h
    unfold decodeGoInt
    rw [h64 b h]
  · intro b h
    unfold decodeGoUint
    exact h64 b h

/-- Claim C10, witness: decode of an empty payload panics for every
fixed-width target, and a one-byte payload still panics for the two-byte
and wider targets. -/
theorem c10_decode_short_panics_witness :
    decodeInt8 [] = .panicked ∧
    decodeUint8 [] = .panicked ∧
    decodeInt16 [7] = .panicked ∧
    decodeUint16 [7] = .panicked ∧
    decodeInt32 [7, 7, 7] = .panicked ∧
    decodeUint32 [7, 7, 7] = .panicked ∧
    decodeInt64 [] = .panicked ∧
    decodeUint64 [] = .panicked ∧
    decodeGoInt [] = .panicked ∧
    decodeGoUint [] = .panicked :=
  ⟨c10_decode_short_panics.1 [] (by norm_num),
   c10_decode_short_panics.2.1 [] (by norm_num),
   c10_decode_short_panics.2.2.1 [7] (by norm_num),
   c10_decode_short_panics.2.2.2.1 [7] (by norm_num),
   c10_decode_short_panics.2.2.2.2.1 [7, 7, 7] (by norm_num),
   c10_decode_short_panics.2.2.2.2.2.1 [7, 7, 7] (by norm_num),
   c10_decode_short_panics.2.2.2.2.2.2.1 [] (by norm_num),
   c10_decode_short_panics.2.2.2.2.2.2.2.1 [] (by norm_num),
   c10_decode_short_panics.2.2.2.2.2.2.2.2.1 [] (by norm_num),
   c10_decode_short_panics.2.2.2.2.2.2.2.2.2 [] (by norm_num)⟩

/-- Claim C5: the expiration computation maps duration 0 to 0; fails with
the invalid-expiration error for every non-zero duration below one second;
sends every duration strictly beyond 30 days as the absolute Unix
timestamp of the injected clock plus the duration; and sends every other
duration as relative whole seconds. -/
theorem c5_expiration_seconds :
    (∀ nowNs : Int, clientSeconds nowNs 0 = .ok 0) ∧
    (∀ nowNs d : Int, d ≠ 0 → d < nsPerSecond →
       clientSeconds nowNs d = .error .expiration) ∧
    (∀ nowNs d : Int, d > 2592000 * nsPerSecond →
       clientSeconds nowNs d = .ok (unixSeconds (nowNs + d))) ∧
    (∀ nowNs d : Int, nsPerSecond ≤ d → d ≤ 2592000 * nsPerSecond →
       clientSeconds nowNs d = .ok (d / nsPerSecond)) := by
  refine ⟨fun nowNs => rfl, ?_, ?_, ?_⟩
  · intro nowNs d h1 h2
    unfold clientSeconds
    rw [if_neg h1, if_pos (by rw [one_mul]; exact h2)]
  · intro nowNs d h
    have hs : nsPerSecond = 1000000000 := rfl
    unfold clientSeconds
    rw [if_neg (by omega), if_neg (by omega), if_pos h]
  · intro nowNs d h1 h2
    have hs : nsPerSecond = 1000000000 := rfl
    unfold clientSeconds
    rw [if_neg (by omega), if_neg (by omega), if_neg (by omega)]

/-- Claim C5, witness: the four branches evaluated at duration 0, half a
second, 30 days plus one second (with the clock at 5 seconds past the
epoch), and 90 seconds. -/
theorem c5_expiration_seconds_witness :
    clientSeconds 0 0 = .ok 0 ∧
    clientSeconds 0 500000000 = .error .expiration ∧
    clientSeconds 5000000000 (2592001 * nsPerSecond) =
      .ok (unixSeconds (5000000000 + 2592001 * nsPerSecond)) ∧
    clientSeconds 0 (90 * nsPerSecond) = .ok (90 * nsPerSecond / nsPerSecond) :=
  ⟨c5_expiration_seconds.1 0,
   c5_expiration_seconds.2.1 0 500000000 (by norm_num)
     (by unfold nsPerSecond; norm_num),
   c5_expiration_seconds.2.2.1 5000000000 (2592001 * nsPerSecond)
     (by unfold nsPerSecond; norm_num),
   c5_expiration_seconds.2.2.2 0 (90 * nsPerSecond)
     (by unfold nsPerSecond; norm_num) (by unfold nsPerSecond; norm_num)⟩

theorem fold_ascii (cs : List Char) (a : Nat) (h : ∀ ch ∈ cs, ch.toNat < 128) :
    ((cs.map utf8Enc).flatten).foldl Nat.xor a =
      cs.foldl (fun x ch => Nat.xor x (runeByte ch)) a := by
  induction cs generalizing a with
  | nil => rfl
  | cons c rest ih =>
    have hc : c.toNat < 128 := h c (List.mem_cons_self c rest)
    have hrest : ∀ ch ∈ rest, ch.toNat < 128 :=
      fun ch hm => h ch (List.mem_cons_of_mem c hm)
    have henc : utf8Enc c = [c.toNat] := by
      unfold utf8Enc
      simp [hc]
    have hrb : runeByte c = c.toNat := by
      unfold runeByte
      exact Nat.mod_eq_of_lt (by omega)
    simp only [List.map_cons, List.flatten_cons, henc, List.foldl_append,
      List.foldl_cons, List.foldl_nil, hrb]
    exact ih _ hrest

set_option maxRecDepth 40000

/-- Claim C1 (amended): with exactly one pool, pick returns 0 for every
key; with two or more pools, pick XOR-folds the seed 37 with every
character of the key truncated to its low byte and reduces modulo the pool
count — for ASCII keys this coincides with the claimed fold over the bytes
of the key; and pick is a pure function of the key and the pool count. -/
theorem c1_pick_routing :
    (∀ (c : Collection) (key : String), c.pools.length = 1 →
       pick c key = 0) ∧
    (∀ (c : Collection) (key : String), 2 ≤ c.pools.length →
       pick c key =
         (key.data.foldl (fun x ch => Nat.xor x (runeByte ch)) 37) %
           c.pools.length) ∧
    (∀ (c : Collection) (key : String), 2 ≤ c.pools.length →
       (∀ ch ∈ key.data, ch.toNat < 128) →
       pick c key = specPickBytes c.pools.length key) ∧
    (∀ (c c2 : Collection) (key : String),
       c.pools.length = c2.pools.length → pick c key = pick c2 key) := by
  have hfold : ∀ (c : Collection) (key : String), 2 ≤ c.pools.length →
      pick c key =
        (key.data.foldl (fun x ch => Nat.xor x (runeByte ch)) 37) %
          c.pools.length := by
    intro c key h
    unfold pick
    rw [if_neg (by omega)]
  refine ⟨?_, hfold, ?_, ?_⟩
  · intro c key h
    unfold pick
    rw [if_pos h]
  · intro c key h hascii
    rw [hfold c key h]
    unfold specPickBytes utf8Bytes
    rw [fold_ascii key.data 37 hascii]
  · intro c c2 key h
    unfold pick
    rw [h]

/-- Claim C1, counterexample: for the two-pool router and the one-rune key
LATIN SMALL LETTER E WITH ACUTE (UTF-8 bytes 195 169, code point 233) the
code picks index 37 xor 233 mod 2 = 0 while the claimed byte fold gives
37 xor 195 xor 169 mod 2 = 1. -/
theorem c1_pick_routing_cex :
    pick { pools := [newPool "10.0.0.1:11211" 1, newPool "10.0.0.2:11211" 1] }
        "é" = 0 ∧
    specPickBytes 2 "é" = 1 ∧
    ¬ (pick { pools := [newPool "10.0.0.1:11211" 1,
                        newPool "10.0.0.2:11211" 1] } "é" =
       specPickBytes 2 "é") := by
  refine ⟨by decide, by decide, by decide⟩

/-- Claim C1, witness: the amended statement evaluated for a single-pool
router, and for a two-pool router at the ASCII key ab, where the fold over
characters and the fold over bytes agree. -/
theorem c1_pick_routing_witness :
    pick { pools := [newPool "a:1" 1] } "anything" = 0 ∧
    pick { pools := [newPool "a:1" 1, newPool "b:1" 1] } "ab" =
      specPickBytes
        ({ pools := [newPool "a:1" 1, newPool "b:1" 1] } : Collection).pools.length
        "ab" ∧
    pick { pools := [newPool "a:1" 1, newPool "b:1" 1] } "ab" =
      pick { pools := [newPool "c:1" 9, newPool "d:1" 9] } "ab" :=
  ⟨c1_pick_routing.1 _ "anything" (by decide),
   c1_pick_routing.2.2.1 _ "ab" (by decide) (by decide),
   c1_pick_routing.2.2.2 _ _ "ab" (by decide)⟩

/-- check is some exactly when the key regexp rejects, and the error is
always ErrKeyNotValid. -/
theorem check_ne_none (key : String) (h : check key ≠ none) :
    check key = some Err.keyNotValid := by
  by_cases hc : (1 ≤ key.length ∧ key.length ≤ 250 ∧
      key.data.all (fun c => !goWhitespace c))
  · exact absurd (by unfold check; rw [if_pos hc]) h
  · unfold check
    rw [if_neg hc]

/-- Claim C6 (amended): key validation accepts exactly the keys of 1 to
250 characters none of which is one of the five RE2 whitespace characters
(tab, newline, form feed, carriage return, space), and every verb rejects
an invalid key with ErrKeyNotValid before any network interaction: the
result does not depend on the dial outcome and the client state is
unchanged. -/
theorem c6_key_validation :
    (∀ key : String, check key = none ↔
       (1 ≤ key.length ∧ key.length ≤ 250 ∧
        ∀ ch ∈ key.data, goWhitespace ch = false)) ∧
    (∀ (st : Client) (key : String) (encItem : Except Err (List Nat))
       (opts : List Opt) (dial : Except Err Wire), check key ≠ none →
       Set st key encItem opts dial = (.error .keyNotValid, st)) ∧
    (∀ (st : Client) (key : String) (encItem : Except Err (List Nat))
       (opts : List Opt) (dial : Except Err Wire), check key ≠ none →
       Add st key encItem opts dial = (.error .keyNotValid, st)) ∧
    (∀ (V : Type) (st : Client) (key : String)
       (dec : List Nat → Except Err V) (dial : Except Err Wire),
       check key ≠ none → Get st key dec dial = (.error .keyNotValid, st)) ∧
    (∀ (st : Client) (key : String) (dial : Except Err Wire),
       check key ≠ none → Delete st key dial = (.error .keyNotValid, st)) ∧
    (∀ (α : Type) (st : Client) (key : String) (delta : Int)
       (cast : Nat → α) (dial : Except Err Wire), check key ≠ none →
       Increment st key delta cast dial = (.error .keyNotValid, st)) ∧
    (∀ (α : Type) (st : Client) (key : String) (delta : Int)
       (cast : Nat → α) (dial : Except Err Wire), check key ≠ none →
       Decrement st key delta cast dial = (.error .keyNotValid, st)) := by
  refine ⟨?_, ?_, ?_, ?_, ?_, ?_, ?_⟩
  · intro key
    by_cases hc : (1 ≤ key.length ∧ key.length ≤ 250 ∧
        key.data.all (fun c => !goWhitespace c))
    · unfold check
      rw [if_pos hc]
      simp only [true_iff]
      obtain ⟨h1, h2, h3⟩ := hc
      refine ⟨h1, h2, ?_⟩
      intro ch hm
      have := List.all_eq_true.mp h3 ch hm
      simpa using this
    · unfold check
      rw [if_neg hc]
      simp only [reduceCtorEq, false_iff]
      intro hcontra
      obtain ⟨h1, h2, h3⟩ := hcontra
      apply hc
      refine ⟨h1, h2, List.all_eq_true.mpr ?_⟩
      intro ch hm
      simpa using h3 ch hm
  · intro st key encItem opts dial h
    unfold Set
    rw [check_ne_none key h]
  · intro st key encItem opts dial h
    unfold Add
    rw [check_ne_none key h]
  · intro V st key dec dial h
    unfold Get
    rw [check_ne_none key h]
  · intro st key dial h
    unfold Delete
    rw [check_ne_none key h]
  · intro α st key delta cast dial h
    unfold Increment
    rw [check_ne_none key h]
  · intro α st key delta cast dial h
    unfold Decrement
    rw [check_ne_none key h]

/-- Claim C6, counterexample: the key of 126 repetitions of LATIN SMALL
LETTER E WITH ACUTE is 252 bytes long and contains no whitespace, so the
claimed byte-length rule rejects it, yet check accepts it — the regexp
bounds count characters, not bytes. -/
theorem c6_key_validation_cex :
    check (String.mk (List.replicate 126 'é')) = none ∧
    specKeyAccepts (String.mk (List.replicate 126 'é')) = false := by
  refine ⟨by decide, by decide⟩

/-- Claim C6, witness: a key holding a space is rejected by every verb
with ErrKeyNotValid, leaving the client untouched and the dial outcome
unread. -/
theorem c6_key_validation_witness :
    Set ⟨0, 0, ⟨[]⟩⟩ "bad key" (.ok []) [] (.error .eof) =
      (.error .keyNotValid, ⟨0, 0, ⟨[]⟩⟩) ∧
    Add ⟨0, 0, ⟨[]⟩⟩ "bad key" (.ok []) [] (.error .eof) =
      (.error .keyNotValid, ⟨0, 0, ⟨[]⟩⟩) ∧
    Get ⟨0, 0, ⟨[]⟩⟩ "bad key" (fun bs => .ok bs) (.error .eof) =
      (.error .keyNotValid, ⟨0, 0, ⟨[]⟩⟩) ∧
    Delete ⟨0, 0, ⟨[]⟩⟩ "bad key" (.error .eof) =
      (.error .keyNotValid, ⟨0, 0, ⟨[]⟩⟩) ∧
    Increment ⟨0, 0, ⟨[]⟩⟩ "bad key" 1 (fun n => n) (.error .eof) =
      (.error .keyNotValid, ⟨0, 0, ⟨[]⟩⟩) ∧
    Decrement ⟨0, 0, ⟨[]⟩⟩ "bad key" 1 (fun n => n) (.error .eof) =
      (.error .keyNotValid, ⟨0, 0, ⟨[]⟩⟩) :=
  ⟨c6_key_validation.2.1 _ "bad key" _ _ _ (by decide),
   c6_key_validation.2.2.1 _ "bad key" _ _ _ (by decide),
   c6_key_validation.2.2.2.1 _ _ "bad key" _ _ (by decide),
   c6_key_validation.2.2.2.2.1 _ "bad key" _ (by decide),
   c6_key_validation.2.2.2.2.2.1 _ _ "bad key" _ _ _ (by decide),
   c6_key_validation.2.2.2.2.2.2 _ _ "bad key" _ _ _ (by decide)⟩

/-- Strengthened reachability invariant for a pool constructed with a
non-negative capacity n: either the pool is open with its capacity intact
and at most n idle connections, or it is closed with an empty idle
store. -/
theorem pool_reachable_inv (n : Int) (hn : 0 ≤ n) (p : Pool)
    (h : PoolReachable n p) :
    (p.idle = n ∧ (p.available.length : Int) ≤ n) ∨
    (p.idle = closedSentinel ∧ p.available = []) := by
  induction h with
  | init a =>
    left
    exact ⟨rfl, by simpa [newPool] using hn⟩
  | step_get p dial hp ih =>
    by_cases hc : p.idle = closedSentinel
    · have h2 : (poolGet p dial).2 = p := by
        unfold poolGet
        rw [if_pos hc]
      rw [h2]
      exact ih
    · cases hav : p.available with
      | nil =>
        have h2 : (poolGet p dial).2 = p := by
          unfold poolGet
          rw [if_neg hc, hav]
          cases dial <;> rfl
        rw [h2]
        exact ih
      | cons b rest =>
        have h2 : (poolGet p dial).2 = { p with available := rest } := by
          unfold poolGet
          rw [if_neg hc, hav]
        rw [h2]
        rcases ih with ⟨h1, hlen⟩ | ⟨h1, hemp⟩
        · left
          refine ⟨h1, ?_⟩
          rw [hav] at hlen
          simp only [List.length_cons] at hlen
          simp only []
          push_cast at hlen ⊢
          omega
        · exact absurd h1 hc
  | step_free p conn hp ih =>
    by_cases hc : p.idle = closedSentinel
    · have h2 : (poolFree p conn).1 = p := by
        unfold poolFree
        rw [if_pos hc]
      rw [h2]
      exact ih
    · by_cases hcap : (p.available.length : Int) ≥ p.idle
      · have h2 : (poolFree p conn).1 = p := by
          unfold poolFree
          rw [if_neg hc, if_pos hcap]
        rw [h2]
        exact ih
      · by_cases hfail : conn.failure = true
        · have h2 : (poolFree p conn).1 = p := by
            unfold poolFree
            rw [if_neg hc, if_neg hcap, if_pos hfail]
          rw [h2]
          exact ih
        · have h2 : (poolFree p conn).1 =
              { p with available := conn :: p.available } := by
            unfold poolFree
            rw [if_neg hc, if_neg hcap, if_neg hfail]
          rw [h2]
          rcases ih with ⟨h1, hlen⟩ | ⟨h1, hemp⟩
          · left
            refine ⟨h1, ?_⟩
            simp only [List.length_cons]
            rw [h1] at hcap
            push_cast at hcap ⊢
            omega
          · exact absurd h1 hc
  | step_close p hp ih =>
    right
    exact ⟨rfl, rfl⟩

/-- Claim C2: release closes and discards the connection whenever the pool
is closed, the idle store is at or above capacity, or the connection is
unhealthy, and pushes it onto the idle store otherwise; consequently a
pool built with non-negative capacity n holds at most n idle connections
in every reachable open state. -/
theorem c2_release_policy :
    (∀ (p : Pool) (conn : Buffer),
       (p.idle = closedSentinel ∨ (p.available.length : Int) ≥ p.idle ∨
        conn.failure = true) →
       (poolFree p conn).1 = p ∧ ((poolFree p conn).2).closed = true) ∧
    (∀ (p : Pool) (conn : Buffer),
       p.idle ≠ closedSentinel → (p.available.length : Int) < p.idle →
       conn.failure = false →
       (poolFree p conn).1 = { p with available := conn :: p.available } ∧
       (poolFree p conn).2 = conn) ∧
    (∀ (n : Int) (p : Pool), 0 ≤ n → PoolReachable n p →
       p.idle ≠ closedSentinel → (p.available.length : Int) ≤ n) := by
  refine ⟨?_, ?_, ?_⟩
  · intro p conn h
    by_cases hc : p.idle = closedSentinel
    · unfold poolFree
      rw [if_pos hc]
      exact ⟨rfl, rfl⟩
    · by_cases hcap : (p.available.length : Int) ≥ p.idle
      · unfold poolFree
        rw [if_neg hc, if_pos hcap]
        exact ⟨rfl, rfl⟩
      · have hfail : conn.failure = true := by tauto
        unfold poolFree
        rw [if_neg hc, if_neg hcap, if_pos hfail]
        exact ⟨rfl, rfl⟩
  · intro p conn hc hcap hfail
    unfold poolFree
    rw [if_neg hc, if_neg (by omega), if_neg (by simp [hfail])]
    exact ⟨rfl, rfl⟩
  · intro n p hn hreach hopen
    rcases pool_reachable_inv n hn p hreach with ⟨h1, h2⟩ | ⟨h1, h2⟩
    · exact h2
    · exact absurd h1 hopen

/-- The empty wire, used by concrete witnesses. -/
def wire0 : Wire := { input := [], sent := [] }

/-- A healthy fresh connection on the empty wire. -/
def buf0 : Buffer := newBuffer wire0

/-- A connection whose failure flag is set. -/
def bufFail : Buffer :=
  { failure := true, closed := false, closeErr := none, wire := wire0 }

/-- A healthy connection whose underlying Close reports an error. -/
def bufBadClose : Buffer :=
  { failure := false, closed := false, closeErr := some "close failed",
    wire := wire0 }

/-- A capacity-one pool holding one idle connection. -/
def poolOneIdle : Pool :=
  { address := "a:1", available := [buf0], idle := 1 }

/-- A one-pool collection whose single idle connection fails to close. -/
def collBadClose : Collection :=
  { pools := [{ address := "a:1", available := [bufBadClose], idle := 1 }] }

/-- Claim C2, witness: releasing to a zero-capacity pool closes the
connection; releasing a healthy connection to an open pool with room
stores it; the freshly constructed capacity-one pool respects the idle
bound. -/
theorem c2_release_policy_witness :
    (poolFree (newPool "a:1" 0) (newBuffer ⟨[], []⟩)).1 = newPool "a:1" 0 ∧
    ((poolFree (newPool "a:1" 0) (newBuffer ⟨[], []⟩)).2).closed = true ∧
    (poolFree (newPool "a:1" 1) (newBuffer ⟨[], []⟩)).1 =
      { newPool "a:1" 1 with
          available := newBuffer ⟨[], []⟩ :: (newPool "a:1" 1).available } ∧
    (((newPool "a:1" 1).available.length : Int)) ≤ 1 :=
  ⟨(c2_release_policy.1 (newPool "a:1" 0) (newBuffer ⟨[], []⟩)
      (Or.inr (Or.inl (by decide)))).1,
   (c2_release_policy.1 (newPool "a:1" 0) (newBuffer ⟨[], []⟩)
      (Or.inr (Or.inl (by decide)))).2,
   (c2_release_policy.2.1 (newPool "a:1" 1) (newBuffer ⟨[], []⟩)
      (by decide) (by decide) (by decide)).1,
   c2_release_policy.2.2 1 (newPool "a:1" 1) (by decide)
     (PoolReachable.init "a:1") (by decide)⟩

/-- Claim C3: a connection whose failure flag is set is closed on release
and never stored, even when the pool is open with capacity remaining; a
non-nil error sets the flag through SetHealth, and no SetHealth call ever
clears it. -/
theorem c3_unhealthy_never_reidled :
    (∀ (p : Pool) (conn : Buffer), conn.failure = true →
       (poolFree p conn).1.available = p.available ∧
       ((poolFree p conn).2).closed = true) ∧
    (∀ (b : Buffer) (e : Err), (setHealth b (some e)).failure = true) ∧
    (∀ (b : Buffer) (err : Option Err), b.failure = true →
       (setHealth b err).failure = true) := by
  refine ⟨?_, fun b e => rfl, ?_⟩
  · intro p conn hfail
    by_cases hc : p.idle = closedSentinel
    · unfold poolFree
      rw [if_pos hc]
      exact ⟨rfl, rfl⟩
    · by_cases hcap : (p.available.length : Int) ≥ p.idle
      · unfold poolFree
        rw [if_neg hc, if_pos hcap]
        exact ⟨rfl, rfl⟩
      · unfold poolFree
        rw [if_neg hc, if_neg hcap, if_pos hfail]
        exact ⟨rfl, rfl⟩
  · intro b err h
    cases err with
    | none => exact h
    | some e => rfl

/-- Claim C3, witness: an unhealthy connection released to an open
capacity-two pool with room is closed, not stored, and SetHealth with an
error sets and never clears the flag. -/
theorem c3_unhealthy_never_reidled_witness :
    (poolFree (newPool "a:1" 2) bufFail).1.available =
      (newPool "a:1" 2).available ∧
    ((poolFree (newPool "a:1" 2) bufFail).2).closed = true ∧
    (setHealth buf0 (some .eof)).failure = true ∧
    (setHealth bufFail none).failure = true :=
  ⟨(c3_unhealthy_never_reidled.1 (newPool "a:1" 2) bufFail rfl).1,
   (c3_unhealthy_never_reidled.1 (newPool "a:1" 2) bufFail rfl).2,
   c3_unhealthy_never_reidled.2.1 buf0 .eof,
   c3_unhealthy_never_reidled.2.2 bufFail none rfl⟩

theorem closeConns_length (l : List Buffer) :
    (closeConns l).length = l.length := by
  induction l with
  | nil => rfl
  | cons b rest ih => simp [closeConns, ih]

theorem closeConns_closed (l : List Buffer) :
    ∀ b ∈ closeConns l, b.closed = true := by
  induction l with
  | nil => intro b hb; cases hb
  | cons x rest ih =>
    intro b hb
    cases hb with
    | head => rfl
    | tail _ hm => exact ih b hm

/-- Claim C4: closing a pool empties the idle store, closes every
previously idle connection (one per idle connection), and makes every
subsequent acquire fail with ClientClosed regardless of the dial outcome,
leaving the pool unchanged. -/
theorem c4_close_semantics :
    ∀ (p : Pool),
      ((poolClose p).1).available = [] ∧
      ((poolClose p).1).idle = closedSentinel ∧
      ((poolClose p).2).length = p.available.length ∧
      (∀ b ∈ (poolClose p).2, b.closed = true) ∧
      (∀ dial : Except Err Wire,
        poolGet (poolClose p).1 dial =
          (.error .clientClosed, (poolClose p).1)) := by
  intro p
  refine ⟨rfl, rfl, closeConns_length p.available,
    closeConns_closed p.available, ?_⟩
  intro dial
  unfold poolGet
  rw [if_pos (show ((poolClose p).1).idle = closedSentinel from rfl)]

/-- Claim C4, witness: a pool holding one idle connection, closed, has an
empty idle store, its one former idle connection is closed, and a
subsequent acquire with a successful dial at hand still fails with
ClientClosed. -/
theorem c4_close_semantics_witness :
    ((poolClose poolOneIdle).1).available = [] ∧
    ((bufClose buf0).1).closed = true ∧
    poolGet (poolClose poolOneIdle).1 (.ok wire0) =
      (.error .clientClosed, (poolClose poolOneIdle).1) :=
  ⟨(c4_close_semantics poolOneIdle).1,
   (c4_close_semantics poolOneIdle).2.2.2.1 (bufClose buf0).1 (by decide),
   (c4_close_semantics poolOneIdle).2.2.2.2 (.ok wire0)⟩

theorem getMulti_eq_map {V : Type} (getf : String → Except Err V) (zero : V)
    (keys : List String) :
    GetMulti getf zero keys = keys.map (fun key =>
      match getf key with
      | .error err => { A := zero, B := some err }
      | .ok v => { A := v, B := none }) := by
  have h : ∀ (ks : List String) (acc : List (Pair V (Option Err))),
      ks.foldl (fun results key =>
        match getf key with
        | .error err => results ++ [{ A := zero, B := some err }]
        | .ok v => results ++ [{ A := v, B := none }]) acc =
      acc ++ ks.map (fun key =>
        match getf key with
        | .error err => { A := zero, B := some err }
        | .ok v => { A := v, B := none }) := by
    intro ks
    induction ks with
    | nil =>
      intro acc
      simp
    | cons k rest ih =>
      intro acc
      simp only [List.foldl_cons, List.map_cons]
      cases hk : getf k with
      | error e =>
        rw [ih]
        simp
      | ok v =>
        rw [ih]
        simp
  unfold GetMulti
  simpa using h keys []

/-- Claim C8: GetMulti returns exactly one pair per requested key, in
input order, and never fails as a whole; the pair at every position is
determined by that key alone, so one key failing cannot suppress or alter
the result for another. -/
theorem c8_getmulti_pairs :
    ∀ {V : Type} (getf : String → Except Err V) (zero : V)
      (keys : List String),
      (GetMulti getf zero keys).length = keys.length ∧
      (∀ i : Nat, (GetMulti getf zero keys)[i]? =
        (keys[i]?).map (fun key =>
          match getf key with
          | .error err => { A := zero, B := some err }
          | .ok v => { A := v, B := none })) := by
  intro V getf zero keys
  rw [getMulti_eq_map]
  refine ⟨List.length_map _ _, ?_⟩
  intro i
  simp [List.getElem?_map]

/-- Claim C9 (amended): closing the collection closes every pool — each
resulting pool is closed with an empty idle store, none skipped — and
always returns nil, discarding (rather than aggregating) the individual
connection close errors. -/
theorem c9_closeall :
    ∀ (c : Collection),
      (collectionClose c).1 = none ∧
      (collectionClose c).2.pools.length = c.pools.length ∧
      ∀ p ∈ (collectionClose c).2.pools,
        p.idle = closedSentinel ∧ p.available = [] := by
  intro c
  refine ⟨rfl, by simp [collectionClose], ?_⟩
  intro p hp
  simp only [collectionClose] at hp
  rcases List.mem_map.1 hp with ⟨q, hq, rfl⟩
  exact ⟨rfl, rfl⟩

/-- Claim C9, counterexample: one pool holding one idle connection whose
Close reports an error; closing the collection yields a non-empty list of
close failures and still returns nil, so no failure is aggregated into
the returned error. -/
theorem c9_closeall_cex :
    (collectionClose collBadClose).1 = none ∧
    closeFailures collBadClose ≠ [] :=
  ⟨rfl, by decide⟩

/-- Claim C9, witness: the amended statement evaluated on a one-pool
collection: the returned error is nil and the resulting pool is closed
and empty. -/
theorem c9_closeall_witness :
    (collectionClose { pools := [newPool "a:1" 1] }).1 = none ∧
    ({ address := "a:1", available := [], idle := closedSentinel } :
        Pool).idle = closedSentinel ∧
    ({ address := "a:1", available := [], idle := closedSentinel } :
        Pool).available = [] :=
  ⟨(c9_closeall _).1,
   ((c9_closeall { pools := [newPool "a:1" 1] }).2.2 _ (by decide)).1,
   ((c9_closeall { pools := [newPool "a:1" 1] }).2.2 _ (by decide)).2⟩

end Memc
